import Mathlib

/-!
Verification development for the d20potz chat bot (`d20potz.py`).

The bot's state layer is a key-value store holding, per chat: a player
order (space-joined string), a current-turn index, per-player current/max
HP, and per-(player, card) "card status" records.  We embed the state
layer and the command handlers shallowly:

* Python strings are modelled as `List Nat` of code units (`Bytes`); for
  the ASCII data handled by the bot this coincides with both the code
  points and the UTF-8 bytes, and card-status keys are modelled at the
  byte level because the range scan compares raw bytes.
* The store is modelled per key family: functions `Int → Option _` for
  the turn/HP keys (distinct format strings cannot collide), and a
  key-sorted association list for the `card_status_*` key space, over
  which the range scan is defined.
* Python exceptions (`IndexError`, `KeyError`, `ZeroDivisionError`,
  `ValueError`) are modelled with `PyErr`; a handler returns its final
  store, the list of messages it sent before returning or raising, and
  `Option PyErr` for an exception escaping the handler.
-/

deriving instance DecidableEq for Except

namespace D20Potz

/-- Exceptions that the modelled Python code can raise. -/
inductive PyErr where
  | indexError
  | keyError
  | zeroDivision
  | valueError
deriving DecidableEq

/-- A Python string, as its list of code units. -/
abbrev Bytes := List Nat

/-- Python `str.split()` whitespace set (ASCII part). -/
def isSpaceB (b : Nat) : Bool :=
  b = 32 || b = 9 || b = 10 || b = 11 || b = 12 || b = 13

/-- Worker for `bSplit`; `acc` holds the current token reversed. -/
def bSplitGo : Bytes → Bytes → List Bytes
  | [], acc => if acc.isEmpty then [] else [acc.reverse]
  | b :: bs, acc =>
    if isSpaceB b then
      if acc.isEmpty then bSplitGo bs [] else acc.reverse :: bSplitGo bs []
    else bSplitGo bs (b :: acc)

/-- Python `str.split()` with no argument: split on whitespace runs,
dropping empty tokens. -/
def bSplit (s : Bytes) : List Bytes := bSplitGo s []

/-- Python `" ".join(xs)`. -/
def bJoin (xs : List Bytes) : Bytes := (xs.intersperse [32]).flatten

/-- Python `str.lower()` (ASCII range; the bot's identifiers are ASCII). -/
def bLower (s : Bytes) : Bytes :=
  s.map (fun b => if 65 ≤ b ∧ b ≤ 90 then b + 32 else b)

/-- Boolean test that `p` is a prefix of `s`. -/
def prefB : Bytes → Bytes → Bool
  | [], _ => true
  | _ :: _, [] => false
  | a :: as, b :: bs => a == b && prefB as bs

/-- Python `needle in hay` for strings: substring containment. -/
def subB (n : Bytes) : Bytes → Bool
  | [] => n.isEmpty
  | b :: bs => prefB n (b :: bs) || subB n bs

/-- Strict lexicographic byte order, as used by the store's comparator. -/
def ltB : Bytes → Bytes → Bool
  | [], [] => false
  | [], _ :: _ => true
  | _ :: _, [] => false
  | a :: as, b :: bs => a < b || (a == b && ltB as bs)

/-- Non-strict lexicographic byte order. -/
def leB (a b : Bytes) : Bool := !(ltB b a)

/-- Python `str.removeprefix`. -/
def stripPref (p s : Bytes) : Bytes := if prefB p s then s.drop p.length else s

/-- Value of a non-empty all-digit string. -/
def digitsVal (ds : Bytes) : Option Nat :=
  if ds.isEmpty then none
  else if ds.all (fun b => 48 ≤ b ∧ b ≤ 57) then
    some (ds.foldl (fun a b => a * 10 + (b - 48)) 0)
  else none

/-- Python `int(s)` on a whitespace-free token: optional sign then digits,
`ValueError` otherwise. -/
def pyInt (s : Bytes) : Except PyErr Int :=
  match s with
  | 45 :: rest =>
    match digitsVal rest with
    | some n => .ok (-(n : Int))
    | none => .error .valueError
  | 43 :: rest =>
    match digitsVal rest with
    | some n => .ok (n : Int)
    | none => .error .valueError
  | _ =>
    match digitsVal s with
    | some n => .ok (n : Int)
    | none => .error .valueError

/-- Python `xs[i]` for a non-negative literal index. -/
def listGetN (xs : List α) (i : Nat) : Except PyErr α :=
  match xs[i]? with
  | some x => .ok x
  | none => .error .indexError

/-- Python `xs[i]` for an `int` index (negative indices count from the
end; out of range raises `IndexError`). -/
def pyIndex (xs : List α) (i : Int) : Except PyErr α :=
  let j : Int := if i < 0 then i + xs.length else i
  if 0 ≤ j then listGetN xs j.toNat else .error .indexError

/-- Python `a % b` on ints: `ZeroDivisionError` on zero divisor; for the
positive divisors occurring here `Int.emod` agrees with Python `%`. -/
def pyMod (a b : Int) : Except PyErr Int :=
  if b = 0 then .error .zeroDivision else .ok (a % b)

/-- UTF-8 encoding of a code point. -/
def utf8Cp (n : Nat) : List Nat :=
  if n < 128 then [n]
  else if n < 2048 then [192 + n / 64, 128 + n % 64]
  else if n < 65536 then [224 + n / 4096, 128 + n / 64 % 64, 128 + n % 64]
  else [240 + n / 262144, 128 + n / 4096 % 64, 128 + n / 64 % 64, 128 + n % 64]

/-! ### ASCII constants used by the handlers (each comment gives the string) -/

/-- ASCII bytes of `"card_status_"`, the card-status key prefix. -/
def kCardStatus : Bytes := [99, 97, 114, 100, 95, 115, 116, 97, 116, 117, 115, 95]

/-- ASCII bytes of `"get"` -/
def kGetTok : Bytes := [103, 101, 116]

/-- ASCII bytes of `"set"` -/
def kSetTok : Bytes := [115, 101, 116]

/-- ASCII bytes of `"="` -/
def kEqTok : Bytes := [61]

/-- ASCII bytes of `"add"` -/
def kAddTok : Bytes := [97, 100, 100]

/-- ASCII bytes of `"+"` -/
def kPlusTok : Bytes := [43]

/-- ASCII bytes of `"sub"` -/
def kSubTok : Bytes := [115, 117, 98]

/-- ASCII bytes of `"-"` -/
def kMinusTok : Bytes := [45]

/-- ASCII bytes of `"hand"` -/
def kHandTok : Bytes := [104, 97, 110, 100]

/-- ASCII bytes of `"all"` -/
def kAllTok : Bytes := [97, 108, 108]

/-- ASCII bytes of `"show"` -/
def kShowTok : Bytes := [115, 104, 111, 119]

/-- ASCII bytes of `"draw"` -/
def kDrawTok : Bytes := [100, 114, 97, 119]

/-- ASCII bytes of `"discard"` -/
def kDiscardTok : Bytes := [100, 105, 115, 99, 97, 114, 100]

/-- ASCII bytes of `"flip"` -/
def kFlipTok : Bytes := [102, 108, 105, 112]

/-- ASCII bytes of `"/hp"` -/
def kHpCmd : Bytes := [47, 104, 112]

/-- ASCII bytes of `"/cards"` -/
def kCardsCmd : Bytes := [47, 99, 97, 114, 100, 115]

/-- ASCII bytes of `"/setplayerlist"` -/
def kSetPlayerListCmd : Bytes :=
  [47, 115, 101, 116, 112, 108, 97, 121, 101, 114, 108, 105, 115, 116]

/-! ## Turn subsystem: keys `player_list_{chat}` and `current_player_{chat}`

The player order is stored as one space-joined string and re-split on
every read; the current index is stored as decimal text of a Python int
and is modelled as `Int` (every write is `str(i)` of an int and every
read is `int(...)` of such a value). -/

/-- The turn-tracking slice of the store: for each chat id, the raw
stored player-list string and the stored current-player index. -/
structure TurnDB where
  playerList : Int → Option Bytes
  currentPlayer : Int → Option Int

/-- Model of `DB.Get` on an optional value: `KeyError` when the key is absent. -/
def dbGetO (o : Option α) : Except PyErr α :=
  match o with
  | some x => .ok x
  | none => .error .keyError

/-- Model of `getCurrentPlayerId(chat_id)`. -/
def getCurrentPlayerId (chat : Int) (db : TurnDB) : Except PyErr Int :=
  dbGetO (db.currentPlayer chat)

/-- Model of `getPlayerById(chat_id, player_id)`: split the stored player list and
index into it. -/
def getPlayerById (chat : Int) (pid : Int) (db : TurnDB) : Except PyErr Bytes := do
  let s ← dbGetO (db.playerList chat)
  pyIndex (bSplit s) pid

/-- Model of `getNextPlayerId(chat_id)`: `(current + 1) % len(player_list)`. -/
def getNextPlayerId (chat : Int) (db : TurnDB) : Except PyErr Int := do
  let s ← dbGetO (db.playerList chat)
  let cur ← dbGetO (db.currentPlayer chat)
  pyMod (cur + 1) ((bSplit s).length : Int)

/-- Model of `setCurrentPlayerId(chat_id, player_id)`. -/
def setCurrentPlayerId (chat : Int) (pid : Int) (db : TurnDB) : TurnDB :=
  { db with currentPlayer := fun c => if c = chat then some pid else db.currentPlayer c }

/-- Model of `setPlayerOrder(chat_id, player_list)`: store the space-joined names
and reset the current index to 0. -/
def setPlayerOrder (chat : Int) (names : List Bytes) (db : TurnDB) : TurnDB :=
  setCurrentPlayerId chat 0
    { db with playerList := fun c => if c = chat then some (bJoin names) else db.playerList c }

/-- Model of `getSpelling(hero_name)`: first matching configured override for the
lower-cased name, else the lower-cased name itself. -/
def getSpelling (spelling : List (Bytes × Bytes)) (name : Bytes) : Bytes :=
  match spelling.find? (fun p => p.1 = bLower name) with
  | some p => p.2
  | none => bLower name

/-- Messages sent by the turn handlers (constructors stand for the
format strings in the source). -/
inductive TurnReply where
  | turnEnded (prev next : Bytes)
  | playerListSet
deriving DecidableEq

/-- Result of a turn handler: final store, messages sent before
returning or raising, and the escaping exception if any. -/
structure TurnOut where
  db : TurnDB
  replies : List TurnReply
  err : Option PyErr

/-- Model of `endTurn` handler: read the current player's name, compute the next
index, persist it, read the next player's name, report both. -/
def endTurn (sp : List (Bytes × Bytes)) (chat : Int) (db : TurnDB) : TurnOut :=
  match getCurrentPlayerId chat db with
  | .error e => ⟨db, [], some e⟩
  | .ok cur =>
    match getPlayerById chat cur db with
    | .error e => ⟨db, [], some e⟩
    | .ok curName =>
      match getNextPlayerId chat db with
      | .error e => ⟨db, [], some e⟩
      | .ok nxt =>
        let db' := setCurrentPlayerId chat nxt db
        match getPlayerById chat nxt db' with
        | .error e => ⟨db', [], some e⟩
        | .ok nxtName =>
          ⟨db', [.turnEnded (getSpelling sp curName) (getSpelling sp nxtName)], none⟩

/-- Model of `setPlayerList` handler: `setPlayerOrder(chat, text.lower().split()[1:])`
then a confirmation message. -/
def setPlayerList (chat : Int) (text : Bytes) (db : TurnDB) : TurnOut :=
  ⟨setPlayerOrder chat ((bSplit (bLower text)).drop 1) db, [.playerListSet], none⟩

/-- Model of `endTurn` applied `k` times, stopping at the first escaping
exception. -/
def endTurnIter (sp : List (Bytes × Bytes)) (chat : Int) : Nat → TurnDB → TurnOut
  | 0, db => ⟨db, [], none⟩
  | k + 1, db =>
    match (endTurn sp chat db).err with
    | some e => ⟨(endTurn sp chat db).db, (endTurn sp chat db).replies, some e⟩
    | none =>
      ⟨(endTurnIter sp chat k (endTurn sp chat db).db).db,
       (endTurn sp chat db).replies ++ (endTurnIter sp chat k (endTurn sp chat db).db).replies,
       (endTurnIter sp chat k (endTurn sp chat db).db).err⟩

/-! ## HP subsystem: keys `player_hp_{chat}_{player}` and
`player_max_hp_{chat}_{player}`

Player names are lower-cased in the keys; values are decimal text of
Python ints written by `str(...)` and read by `int(...)`, modelled as
`Int`. -/

/-- The HP slice of the store. -/
structure HpDB where
  hp : Int → Bytes → Option Int
  maxHp : Int → Bytes → Option Int

/-- Model of `getPlayerHp(chat_id, player_name)`. -/
def getPlayerHp (chat : Int) (name : Bytes) (db : HpDB) : Except PyErr Int :=
  dbGetO (db.hp chat (bLower name))

/-- Model of `getPlayerMaxHp(chat_id, player_name)`. -/
def getPlayerMaxHp (chat : Int) (name : Bytes) (db : HpDB) : Except PyErr Int :=
  dbGetO (db.maxHp chat (bLower name))

/-- Model of `setPlayerHp(chat_id, player_name, hp)`. -/
def setPlayerHp (chat : Int) (name : Bytes) (v : Int) (db : HpDB) : HpDB :=
  { db with hp := fun c n => if c = chat ∧ n = bLower name then some v else db.hp c n }

/-- Model of `setPlayerMaxHp(chat_id, player_name, max_hp)`. -/
def setPlayerMaxHp (chat : Int) (name : Bytes) (v : Int) (db : HpDB) : HpDB :=
  { db with maxHp := fun c n => if c = chat ∧ n = bLower name then some v else db.maxHp c n }

/-- Model of `setDefaultHps(chat_id)`: for each configured `(name, hp)` pair, set
both current and max HP to the configured value. -/
def setDefaultHps (defaults : List (Bytes × Int)) (chat : Int) (db : HpDB) : HpDB :=
  defaults.foldl
    (fun d pr => setPlayerMaxHp chat (bLower pr.1) pr.2 (setPlayerHp chat (bLower pr.1) pr.2 d))
    db

/-- Messages sent by the `/hp` handler (constructors stand for the format
strings in the source; display names already pass through
`getSpelling` where the source does). -/
inductive HpReply where
  | notInRoster (name : Bytes) (roster : List Bytes)
  | noHpSet (name : Bytes)
  | hpIs (name : Bytes) (hp : Int)
  | hpSetTo (name : Bytes) (hp : Int)
  | usage
deriving DecidableEq

/-- Result of the `/hp` handler. -/
structure HpOut where
  db : HpDB
  replies : List HpReply
  err : Option PyErr

/-- Model of `hpCommand` body after `params = text.split()`; `cfg` is
`CONFIG.order` and `sp` the spelling table. -/
def hpCommandP (sp : List (Bytes × Bytes)) (cfg : Bytes) (params : List Bytes)
    (chat : Int) (db : HpDB) : HpOut :=
  match listGetN params 1 with
  | .error e => ⟨db, [], some e⟩
  | .ok player =>
    let roster := bSplit (bLower cfg)
    if player ∉ roster then ⟨db, [.notInRoster player roster], none⟩
    else
      match (if params.length = 2 then Except.ok kGetTok else listGetN params 2) with
      | .error e => ⟨db, [], some e⟩
      | .ok sub =>
        if sub = kGetTok then
          match getPlayerHp chat player db with
          | .error _ => ⟨db, [.noHpSet player], none⟩
          | .ok h => ⟨db, [.hpIs (getSpelling sp player) h], none⟩
        else if sub = kSetTok ∨ sub = kEqTok then
          match listGetN params 3 with
          | .error e => ⟨db, [], some e⟩
          | .ok tok =>
            match pyInt tok with
            | .error e => ⟨db, [], some e⟩
            | .ok v =>
              ⟨setPlayerMaxHp chat player v (setPlayerHp chat player v db),
               [.hpSetTo (getSpelling sp player) v], none⟩
        else if sub = kAddTok ∨ sub = kPlusTok then
          match listGetN params 3 with
          | .error e => ⟨db, [], some e⟩
          | .ok tok =>
            match pyInt tok with
            | .error e => ⟨db, [], some e⟩
            | .ok v =>
              match getPlayerMaxHp chat player db with
              | .error _ => ⟨db, [.noHpSet player], none⟩
              | .ok m =>
                match getPlayerHp chat player db with
                | .error e => ⟨db, [], some e⟩
                | .ok h =>
                  let newHp := min (h + v) m
                  ⟨setPlayerHp chat player newHp db,
                   [.hpSetTo (getSpelling sp player) newHp], none⟩
        else if sub = kSubTok ∨ sub = kMinusTok then
          match listGetN params 3 with
          | .error e => ⟨db, [], some e⟩
          | .ok tok =>
            match pyInt tok with
            | .error e => ⟨db, [], some e⟩
            | .ok v =>
              match getPlayerHp chat player db with
              | .error _ => ⟨db, [.noHpSet player], none⟩
              | .ok h =>
                let newHp := max (h - v) 0
                ⟨setPlayerHp chat player newHp db,
                 [.hpSetTo (getSpelling sp player) newHp], none⟩
        else ⟨db, [.usage], none⟩

/-- Model of `hpCommand` handler on the raw message text. -/
def hpCommand (sp : List (Bytes × Bytes)) (cfg : Bytes) (text : Bytes)
    (chat : Int) (db : HpDB) : HpOut :=
  hpCommandP sp cfg (bSplit text) chat db

/-! ## Cards subsystem: key space `card_status_{chat}_{player}_{card}`

Keys are raw UTF-8 byte strings and the range scan compares bytes, so
this slice is modelled as a key-sorted association list of full byte
keys to the flipped flag (the stored value is `b"1"`/`b"0"`).  `chat` is
the decimal rendering of the chat id, `player`/`card` the byte encodings
of the identifiers. -/

/-- The card-status slice of the store: full keys to flipped flags,
sorted in the store's byte order. -/
abbrev CardDB := List (Bytes × Bool)

/-- Model of `DB.Put` on the sorted association list (upsert, keeping order). -/
def putKey (key : Bytes) (v : Bool) : CardDB → CardDB
  | [] => [(key, v)]
  | (k, w) :: rest =>
    if key = k then (key, v) :: rest
    else if ltB key k then (key, v) :: (k, w) :: rest
    else (k, w) :: putKey key v rest

/-- Model of `DB.Delete`. -/
def delKey (key : Bytes) (db : CardDB) : CardDB := db.filter (fun e => e.1 ≠ key)

/-- The key prefix `f"card_status_{chat_id}_{player_id}_"`. -/
def cardKeyPref (chat player : Bytes) : Bytes :=
  kCardStatus ++ chat ++ [95] ++ player ++ [95]

/-- The scan's upper-bound suffix: Python `"\255"` is the octal escape
for code point `0o255` = U+00AD, whose UTF-8 encoding is `[194, 173]`. -/
def sentinel : Bytes := utf8Cp 0o255

/-- Model of `setPlayerCardStatus(chat_id, player_id, card_id, flipped)`. -/
def setPlayerCardStatus (chat player card : Bytes) (flipped : Bool) (db : CardDB) : CardDB :=
  putKey (cardKeyPref chat player ++ card) flipped db

/-- Model of `removePlayerCardStatus(chat_id, player_id, card_id)`. -/
def removePlayerCardStatus (chat player card : Bytes) (db : CardDB) : CardDB :=
  delKey (cardKeyPref chat player ++ card) db

/-- The value filter in `getPlayerCards`:
`flipped is None or (flipped and v == b"1") or (not flipped and v == b"0")`. -/
def flipMatch (flt : Option Bool) (v : Bool) : Bool :=
  match flt with
  | none => true
  | some true => v
  | some false => !v

/-- Model of `getPlayerCards(chat_id, player_id, flipped)`: range-scan from the
prefix to the prefix plus `sentinel` (both bounds inclusive, as in the
store's `RangeIter`), keep entries passing the value filter, and yield
each key with the prefix stripped. -/
def getPlayerCards (chat player : Bytes) (flt : Option Bool) (db : CardDB) : List Bytes :=
  (db.filter (fun e =>
      leB (cardKeyPref chat player) e.1 &&
      leB e.1 (cardKeyPref chat player ++ sentinel) &&
      flipMatch flt e.2)).map
    (fun e => stripPref (cardKeyPref chat player) e.1)

/-- Messages sent by the `/cards` handler (constructors stand for the
format strings and media-group sends in the source). -/
inductive CardReply where
  | usage
  | notInRoster (name : Bytes) (roster : List Bytes)
  | noCards (name : Bytes)
  | imageSet (cards : List Bytes)
  | showUsage
  | drawUsage
  | flipUsage
  | couldNotFindCat (frag : Bytes) (catalog : List Bytes)
  | drew (player card : Bytes)
  | couldNotFindHand (frag player : Bytes) (hand : List Bytes)
  | discarded (player card : Bytes)
  | flippedHand (player : Bytes) (cards : List Bytes)
  | flippedMsg (player card : Bytes)
  | unflippedMsg (player card : Bytes)
  | unknownSub (sub : Bytes)
deriving DecidableEq

/-- Result of the `/cards` handler. -/
structure CardOut where
  db : CardDB
  replies : List CardReply
  err : Option PyErr
deriving DecidableEq

/-- Model of `cardsCommand` body after `params = text.split()`; `cat` is the
static `CARDS` dictionary (player name to catalog list), `cfg` is
`CONFIG.order`, `sp` the spelling table. -/
def cardsCommandP (sp : List (Bytes × Bytes)) (cfg : Bytes)
    (cat : Bytes → Option (List Bytes)) (params : List Bytes)
    (chat : Bytes) (db : CardDB) : CardOut :=
  if params.length < 2 then ⟨db, [.usage], none⟩
  else
    match listGetN params 1 with
    | .error e => ⟨db, [], some e⟩
    | .ok player =>
      let roster := bSplit (bLower cfg)
      if player ∉ roster then ⟨db, [.notInRoster player roster], none⟩
      else
        match (if params.length = 2 then Except.ok kHandTok else listGetN params 2) with
        | .error e => ⟨db, [], some e⟩
        | .ok sub =>
          if sub = kAllTok then
            match cat player with
            | none => ⟨db, [], some .keyError⟩
            | some cards =>
              if cards.isEmpty then ⟨db, [.noCards (getSpelling sp player)], none⟩
              else ⟨db, [.imageSet cards], none⟩
          else if sub = kShowTok then
            if params.length < 3 then ⟨db, [.showUsage], none⟩
            else
              match listGetN params 3 with
              | .error e => ⟨db, [], some e⟩
              | .ok frag =>
                match cat player with
                | none => ⟨db, [], some .keyError⟩
                | some cards =>
                  match cards.filter (fun c => subB frag c) with
                  | [] => ⟨db, [.couldNotFindCat frag cards], none⟩
                  | ms => ⟨db, [.imageSet ms], none⟩
          else if sub = kDrawTok then
            if params.length < 3 then ⟨db, [.drawUsage], none⟩
            else
              match listGetN params 3 with
              | .error e => ⟨db, [], some e⟩
              | .ok frag =>
                match cat player with
                | none => ⟨db, [], some .keyError⟩
                | some cards =>
                  match cards.filter (fun c => subB frag c) with
                  | [] =>
                    -- no `return` after the not-found message in the
                    -- source: the reply is sent, then `player_cards[0]`
                    -- raises IndexError before any write happens
                    ⟨db, [.couldNotFindCat frag cards], some .indexError⟩
                  | c :: _ =>
                    ⟨setPlayerCardStatus chat player c false db, [.drew player c], none⟩
          else if sub = kDiscardTok then
            if params.length < 3 then ⟨db, [.flipUsage], none⟩
            else
              match listGetN params 3 with
              | .error e => ⟨db, [], some e⟩
              | .ok frag =>
                let hand := getPlayerCards chat player none db
                let ds := hand.filter (fun c => subB frag c)
                if ds.length ≠ 1 then ⟨db, [.couldNotFindHand frag player hand], none⟩
                else
                  match ds with
                  | [] => ⟨db, [], some .indexError⟩
                  | c :: _ =>
                    ⟨removePlayerCardStatus chat player c db, [.discarded player c], none⟩
          else if sub = kHandTok then
            ⟨db,
             [.imageSet (getPlayerCards chat player (some false) db),
              .flippedHand player (getPlayerCards chat player (some true) db)], none⟩
          else if sub = kFlipTok then
            if params.length < 3 then ⟨db, [.flipUsage], none⟩
            else
              match listGetN params 3 with
              | .error e => ⟨db, [], some e⟩
              | .ok frag =>
                let nf := (getPlayerCards chat player (some false) db).filter
                    (fun c => subB frag c)
                let fl := (getPlayerCards chat player (some true) db).filter
                    (fun c => subB frag c)
                if nf.isEmpty ∧ fl.isEmpty then
                  ⟨db, [.couldNotFindHand frag player (getPlayerCards chat player none db)],
                   none⟩
                else
                  match nf with
                  | c :: _ =>
                    ⟨setPlayerCardStatus chat player c true db, [.flippedMsg player c], none⟩
                  | [] =>
                    match fl with
                    | c :: _ =>
                      ⟨setPlayerCardStatus chat player c false db,
                       [.unflippedMsg player c], none⟩
                    | [] => ⟨db, [], some .indexError⟩
          else ⟨db, [.unknownSub sub], none⟩

/-- Model of `cardsCommand` handler on the raw message text. -/
def cardsCommand (sp : List (Bytes × Bytes)) (cfg : Bytes)
    (cat : Bytes → Option (List Bytes)) (text : Bytes)
    (chat : Bytes) (db : CardDB) : CardOut :=
  cardsCommandP sp cfg cat (bSplit text) chat db

/-! ## Lemmas about the byte-string primitives -/

theorem prefB_app (p t : Bytes) : prefB p (p ++ t) = true := by
  induction p with
  | nil => rfl
  | cons a as ih => simp [prefB, ih]

theorem strip_app (p t : Bytes) : stripPref p (p ++ t) = t := by
  rw [stripPref, if_pos (prefB_app p t), List.drop_left]

theorem ltB_app_self (p t : Bytes) : ltB (p ++ t) p = false := by
  induction p with
  | nil => cases t <;> rfl
  | cons a as ih => simp [ltB, ih]

theorem leB_app_self (p t : Bytes) : leB p (p ++ t) = true := by
  rw [leB, ltB_app_self]; rfl

theorem prefB_drop : ∀ {p k : Bytes}, prefB p k = true → p ++ k.drop p.length = k
  | [], _, _ => rfl
  | _ :: _, [], h => by simp [prefB] at h
  | a :: as, b :: bs, h => by
    simp only [prefB, Bool.and_eq_true, beq_iff_eq] at h
    obtain ⟨rfl, h2⟩ := h
    simpa using prefB_drop h2

/-- Any key lying (in byte order) between a prefix and the prefix
extended by anything must start with that prefix. -/
theorem inRange_pref : ∀ (p k : Bytes) (s : Bytes),
    leB p k = true → leB k (p ++ s) = true → prefB p k = true
  | [], _, _, _, _ => rfl
  | a :: as, [], s, h1, _ => by simp [leB, ltB] at h1
  | a :: as, b :: ks, s, h1, h2 => by
    simp only [leB, ltB, Bool.not_eq_true', Bool.or_eq_false_iff,
      Bool.and_eq_false_iff, decide_eq_false_iff_not, List.cons_append] at h1 h2
    have hab : a = b := by
      rcases Nat.lt_trichotomy a b with h | h | h
      · exact absurd h h2.1
      · exact h
      · exact absurd h h1.1
    subst hab
    have h1' : ltB ks as = false := by
      rcases h1.2 with h | h
      · simp at h
      · exact h
    have h2' : ltB (as ++ s) ks = false := by
      rcases h2.2 with h | h
      · simp at h
      · exact h
    have ih := inRange_pref as ks s (by rw [leB, h1']; rfl) (by rw [leB, h2']; rfl)
    simp [prefB, ih]

/-- Membership in a `getPlayerCards` scan, characterised by the key of
the corresponding store entry. -/
theorem mem_scan_iff (chat player : Bytes) (flt : Option Bool) (db : CardDB) (c : Bytes) :
    c ∈ getPlayerCards chat player flt db ↔
      ∃ v, (cardKeyPref chat player ++ c, v) ∈ db ∧ flipMatch flt v = true ∧
        leB (cardKeyPref chat player ++ c) (cardKeyPref chat player ++ sentinel) = true := by
  unfold getPlayerCards
  constructor
  · intro h
    rw [List.mem_map] at h
    obtain ⟨e, he, hec⟩ := h
    rw [List.mem_filter] at he
    obtain ⟨hmem, hcond⟩ := he
    simp only [Bool.and_eq_true] at hcond
    obtain ⟨⟨h1, h2⟩, h3⟩ := hcond
    have hpref := inRange_pref (cardKeyPref chat player) e.1 sentinel h1 h2
    have hkey : cardKeyPref chat player ++ c = e.1 := by
      rw [← hec, stripPref, if_pos hpref]
      exact prefB_drop hpref
    refine ⟨e.2, ?_, h3, ?_⟩
    · rw [hkey]; exact hmem
    · rw [hkey]; exact h2
  · rintro ⟨v, hmem, hfl, hle⟩
    rw [List.mem_map]
    refine ⟨(cardKeyPref chat player ++ c, v), ?_, strip_app _ c⟩
    rw [List.mem_filter]
    refine ⟨hmem, ?_⟩
    simp [leB_app_self, hle, hfl]

/-- A removed card never appears in a later scan, whatever the filter. -/
theorem not_mem_scan_remove (chat player c : Bytes) (flt : Option Bool) (db : CardDB) :
    c ∉ getPlayerCards chat player flt (removePlayerCardStatus chat player c db) := by
  intro h
  rw [mem_scan_iff] at h
  obtain ⟨v, hmem, -, -⟩ := h
  rw [removePlayerCardStatus, delKey, List.mem_filter] at hmem
  simp at hmem

/-- A scan of the store after a delete only yields cards the original
scan yielded, and never the deleted one. -/
theorem mem_scan_remove (chat player c d : Bytes) (flt : Option Bool) (db : CardDB)
    (h : d ∈ getPlayerCards chat player flt (removePlayerCardStatus chat player c db)) :
    d ∈ getPlayerCards chat player flt db ∧ d ≠ c := by
  rw [mem_scan_iff] at h
  obtain ⟨v, hmem, hfl, hle⟩ := h
  rw [removePlayerCardStatus, delKey, List.mem_filter] at hmem
  obtain ⟨hmem, hne⟩ := hmem
  simp only [ne_eq, decide_eq_true_eq] at hne
  constructor
  · rw [mem_scan_iff]; exact ⟨v, hmem, hfl, hle⟩
  · intro hdc
    exact hne (by rw [hdc])

/-! ## Lemmas about split and join -/

theorem bSplitGo_app (xs : Bytes) (hxs : ∀ b ∈ xs, isSpaceB b = false) :
    ∀ (rest acc : Bytes), bSplitGo (xs ++ rest) acc = bSplitGo rest (xs.reverse ++ acc) := by
  induction xs with
  | nil => intro rest acc; rfl
  | cons a as ih =>
    intro rest acc
    have ha : isSpaceB a = false := hxs a (List.mem_cons_self a as)
    show bSplitGo (a :: (as ++ rest)) acc = _
    rw [bSplitGo, if_neg (by simp [ha])]
    rw [ih (fun b hb => hxs b (List.mem_cons_of_mem a hb)) rest (a :: acc)]
    congr 1
    simp

theorem bSplitGo_token (x : Bytes) (hx : x ≠ []) :
    bSplitGo [] x.reverse = [x] := by
  rw [bSplitGo, if_neg (by simpa using hx)]
  simp

theorem bJoin_cons2 (x y : Bytes) (t : List Bytes) :
    bJoin (x :: y :: t) = x ++ 32 :: bJoin (y :: t) := by
  simp [bJoin, List.intersperse]

/-- Round trip: joining non-empty whitespace-free tokens with single
spaces and re-splitting recovers exactly the tokens. -/
theorem bSplit_bJoin : ∀ (names : List Bytes),
    (∀ n ∈ names, n ≠ [] ∧ ∀ b ∈ n, isSpaceB b = false) →
    bSplit (bJoin names) = names
  | [], _ => rfl
  | [x], h => by
    obtain ⟨hx, hxs⟩ := h x (by simp)
    have hj : bJoin [x] = x := by simp [bJoin, List.intersperse]
    rw [hj, bSplit]
    have := bSplitGo_app x hxs [] []
    simp only [List.append_nil] at this
    rw [this, bSplitGo_token x hx]
  | x :: y :: t, h => by
    obtain ⟨hx, hxs⟩ := h x (by simp)
    rw [bJoin_cons2, bSplit]
    have := bSplitGo_app x hxs (32 :: bJoin (y :: t)) []
    simp only [List.append_nil] at this
    rw [this, bSplitGo, if_pos (by rfl), if_neg (by simpa using hx)]
    simp only [List.reverse_reverse]
    have ih := bSplit_bJoin (y :: t) (fun n hn => h n (List.mem_cons_of_mem x hn))
    rw [bSplit] at ih
    rw [ih]

/-! ## Evaluation lemmas for the `/hp` handler branches -/

theorem hpCommandP_set_eval (sp : List (Bytes × Bytes)) (cfg p0 player t tok : Bytes)
    (chat : Int) (db : HpDB) (v : Int)
    (hros : player ∈ bSplit (bLower cfg))
    (ht : t = kSetTok ∨ t = kEqTok)
    (htok : pyInt tok = .ok v) :
    hpCommandP sp cfg [p0, player, t, tok] chat db =
      ⟨setPlayerMaxHp chat player v (setPlayerHp chat player v db),
       [.hpSetTo (getSpelling sp player) v], none⟩ := by
  rcases ht with rfl | rfl <;>
    simp [hpCommandP, listGetN, hros, htok, kGetTok, kSetTok, kEqTok]

theorem hpCommandP_add_eval (sp : List (Bytes × Bytes)) (cfg p0 player t tok : Bytes)
    (chat : Int) (db : HpDB) (v h m : Int)
    (hros : player ∈ bSplit (bLower cfg))
    (ht : t = kAddTok ∨ t = kPlusTok)
    (htok : pyInt tok = .ok v)
    (hh : db.hp chat (bLower player) = some h)
    (hm : db.maxHp chat (bLower player) = some m) :
    hpCommandP sp cfg [p0, player, t, tok] chat db =
      ⟨setPlayerHp chat player (min (h + v) m) db,
       [.hpSetTo (getSpelling sp player) (min (h + v) m)], none⟩ := by
  rcases ht with rfl | rfl <;>
    simp [hpCommandP, listGetN, hros, htok, getPlayerHp, getPlayerMaxHp, dbGetO, hh, hm,
      kGetTok, kSetTok, kEqTok, kAddTok, kPlusTok]

theorem hpCommandP_add_nomax (sp : List (Bytes × Bytes)) (cfg p0 player t tok : Bytes)
    (chat : Int) (db : HpDB) (v : Int)
    (hros : player ∈ bSplit (bLower cfg))
    (ht : t = kAddTok ∨ t = kPlusTok)
    (htok : pyInt tok = .ok v)
    (hm : db.maxHp chat (bLower player) = none) :
    hpCommandP sp cfg [p0, player, t, tok] chat db = ⟨db, [.noHpSet player], none⟩ := by
  rcases ht with rfl | rfl <;>
    simp [hpCommandP, listGetN, hros, htok, getPlayerMaxHp, dbGetO, hm,
      kGetTok, kSetTok, kEqTok, kAddTok, kPlusTok]

theorem hpCommandP_add_nohp (sp : List (Bytes × Bytes)) (cfg p0 player t tok : Bytes)
    (chat : Int) (db : HpDB) (v m : Int)
    (hros : player ∈ bSplit (bLower cfg))
    (ht : t = kAddTok ∨ t = kPlusTok)
    (htok : pyInt tok = .ok v)
    (hh : db.hp chat (bLower player) = none)
    (hm : db.maxHp chat (bLower player) = some m) :
    hpCommandP sp cfg [p0, player, t, tok] chat db = ⟨db, [], some .keyError⟩ := by
  rcases ht with rfl | rfl <;>
    simp [hpCommandP, listGetN, hros, htok, getPlayerHp, getPlayerMaxHp, dbGetO, hh, hm,
      kGetTok, kSetTok, kEqTok, kAddTok, kPlusTok]

theorem hpCommandP_sub_eval (sp : List (Bytes × Bytes)) (cfg p0 player t tok : Bytes)
    (chat : Int) (db : HpDB) (v h : Int)
    (hros : player ∈ bSplit (bLower cfg))
    (ht : t = kSubTok ∨ t = kMinusTok)
    (htok : pyInt tok = .ok v)
    (hh : db.hp chat (bLower player) = some h) :
    hpCommandP sp cfg [p0, player, t, tok] chat db =
      ⟨setPlayerHp chat player (max (h - v) 0) db,
       [.hpSetTo (getSpelling sp player) (max (h - v) 0)], none⟩ := by
  rcases ht with rfl | rfl <;>
    simp [hpCommandP, listGetN, hros, htok, getPlayerHp, dbGetO, hh,
      kGetTok, kSetTok, kEqTok, kAddTok, kPlusTok, kSubTok, kMinusTok]

theorem hpCommandP_sub_nohp (sp : List (Bytes × Bytes)) (cfg p0 player t tok : Bytes)
    (chat : Int) (db : HpDB) (v : Int)
    (hros : player ∈ bSplit (bLower cfg))
    (ht : t = kSubTok ∨ t = kMinusTok)
    (htok : pyInt tok = .ok v)
    (hh : db.hp chat (bLower player) = none) :
    hpCommandP sp cfg [p0, player, t, tok] chat db = ⟨db, [.noHpSet player], none⟩ := by
  rcases ht with rfl | rfl <;>
    simp [hpCommandP, listGetN, hros, htok, getPlayerHp, dbGetO, hh,
      kGetTok, kSetTok, kEqTok, kAddTok, kPlusTok, kSubTok, kMinusTok]

theorem setPlayerHp_read (chat : Int) (player : Bytes) (v : Int) (db : HpDB) :
    (setPlayerHp chat player v db).hp chat (bLower player) = some v := by
  simp [setPlayerHp]

theorem setPlayerMaxHp_read_hp (chat : Int) (player : Bytes) (v : Int) (db : HpDB) :
    (setPlayerMaxHp chat player v db).hp = db.hp := rfl

/-! ## The HP invariant -/

/-- The invariant claimed for `PlayerHealth`: wherever both current and
max HP are recorded, `0 ≤ current ≤ max`. -/
def hpInv (db : HpDB) : Prop :=
  ∀ (c : Int) (n : Bytes) (h m : Int),
    db.hp c n = some h → db.maxHp c n = some m → 0 ≤ h ∧ h ≤ m

theorem hpInv_setBoth (db : HpDB) (chat : Int) (player : Bytes) (v : Int)
    (hdb : hpInv db) (hv : 0 ≤ v) :
    hpInv (setPlayerMaxHp chat player v (setPlayerHp chat player v db)) := by
  intro c n h m h1 h2
  simp only [setPlayerMaxHp, setPlayerHp] at h1 h2
  by_cases hcn : c = chat ∧ n = bLower player
  · rw [if_pos hcn] at h1 h2
    obtain rfl : v = h := by injection h1
    obtain rfl : v = m := by injection h2
    exact ⟨hv, le_refl _⟩
  · rw [if_neg hcn] at h1 h2
    exact hdb c n h m h1 h2

theorem hpInv_update (db : HpDB) (chat : Int) (player : Bytes) (v : Int)
    (hdb : hpInv db) (hv : 0 ≤ v)
    (hle : ∀ m, db.maxHp chat (bLower player) = some m → v ≤ m) :
    hpInv (setPlayerHp chat player v db) := by
  intro c n h m h1 h2
  simp only [setPlayerHp] at h1 h2
  by_cases hcn : c = chat ∧ n = bLower player
  · rw [if_pos hcn] at h1
    obtain rfl : v = h := by injection h1
    obtain ⟨rfl, rfl⟩ := hcn
    exact ⟨hv, hle m h2⟩
  · rw [if_neg hcn] at h1
    exact hdb c n h m h1 h2

/-! ## Lemmas for turn rotation -/

theorem pyIndex_ok (xs : List α) (j : Int) (hj0 : 0 ≤ j) (hjl : j < (xs.length : Int)) :
    ∃ x, pyIndex xs j = .ok x := by
  have hjn : j.toNat < xs.length := by omega
  refine ⟨xs.get ⟨j.toNat, hjn⟩, ?_⟩
  simp only [pyIndex, if_neg (show ¬ j < 0 by omega), if_pos hj0, listGetN]
  rw [List.getElem?_eq_getElem hjn]
  rfl

theorem getNextPlayerId_ok (chat : Int) (db : TurnDB) (s : Bytes) (i : Int)
    (hs : db.playerList chat = some s) (hc : db.currentPlayer chat = some i)
    (hlen : (bSplit s).length ≠ 0) :
    getNextPlayerId chat db = .ok ((i + 1) % ((bSplit s).length : Int)) := by
  rw [getNextPlayerId]
  simp only [hs, hc, dbGetO, Bind.bind, Except.bind, pyMod]
  rw [if_neg (by exact_mod_cast hlen)]

theorem getPlayerById_ok (chat : Int) (db : TurnDB) (s : Bytes) (j : Int)
    (hs : db.playerList chat = some s)
    (hj0 : 0 ≤ j) (hjl : j < ((bSplit s).length : Int)) :
    ∃ nm, getPlayerById chat j db = .ok nm := by
  obtain ⟨x, hx⟩ := pyIndex_ok (bSplit s) j hj0 hjl
  refine ⟨x, ?_⟩
  rw [getPlayerById]
  simp only [hs, dbGetO, Bind.bind, Except.bind]
  exact hx

theorem endTurn_step (sp : List (Bytes × Bytes)) (chat : Int) (db : TurnDB) (s : Bytes) (i : Int)
    (hs : db.playerList chat = some s)
    (hc : db.currentPlayer chat = some i)
    (h0 : 0 ≤ i) (hn : i < ((bSplit s).length : Int)) :
    (endTurn sp chat db).err = none ∧
    (endTurn sp chat db).db
      = setCurrentPlayerId chat ((i + 1) % ((bSplit s).length : Int)) db := by
  have hlen : (bSplit s).length ≠ 0 := by omega
  have hlen' : (0 : Int) < ((bSplit s).length : Int) := by
    have := hn; omega
  have hcur : getCurrentPlayerId chat db = .ok i := by
    rw [getCurrentPlayerId, hc]; rfl
  obtain ⟨nm, hnm⟩ := getPlayerById_ok chat db s i hs h0 hn
  have hnext := getNextPlayerId_ok chat db s i hs hc hlen
  have hmod0 : 0 ≤ (i + 1) % ((bSplit s).length : Int) :=
    Int.emod_nonneg _ (by exact_mod_cast hlen)
  have hmodl : (i + 1) % ((bSplit s).length : Int) < ((bSplit s).length : Int) :=
    Int.emod_lt_of_pos _ hlen'
  have hs' : (setCurrentPlayerId chat ((i + 1) % ((bSplit s).length : Int)) db).playerList chat
      = some s := hs
  obtain ⟨nm', hnm'⟩ := getPlayerById_ok chat
    (setCurrentPlayerId chat ((i + 1) % ((bSplit s).length : Int)) db) s
    ((i + 1) % ((bSplit s).length : Int)) hs' hmod0 hmodl
  simp only [endTurn, hcur, hnm, hnext, hnm']
  exact ⟨trivial, trivial⟩

theorem endTurnIter_inv (sp : List (Bytes × Bytes)) (chat : Int) :
    ∀ (k : Nat) (db : TurnDB) (s : Bytes) (i : Int),
      db.playerList chat = some s →
      db.currentPlayer chat = some i →
      0 ≤ i → i < ((bSplit s).length : Int) →
      (endTurnIter sp chat k db).err = none ∧
      (endTurnIter sp chat k db).db.playerList = db.playerList ∧
      (endTurnIter sp chat k db).db.currentPlayer chat
        = some ((i + k) % ((bSplit s).length : Int)) ∧
      ∀ c, c ≠ chat → (endTurnIter sp chat k db).db.currentPlayer c = db.currentPlayer c := by
  intro k
  induction k with
  | zero =>
    intro db s i hs hc h0 hn
    refine ⟨rfl, rfl, ?_, fun c _ => rfl⟩
    show db.currentPlayer chat = _
    rw [hc]
    congr 1
    rw [Nat.cast_zero, add_zero, Int.emod_eq_of_lt h0 hn]
  | succ k ih =>
    intro db s i hs hc h0 hn
    have hlen : (bSplit s).length ≠ 0 := by omega
    have hlen' : (0 : Int) < ((bSplit s).length : Int) := by omega
    obtain ⟨herr, hdb⟩ := endTurn_step sp chat db s i hs hc h0 hn
    have hmod0 : 0 ≤ (i + 1) % ((bSplit s).length : Int) :=
      Int.emod_nonneg _ (by exact_mod_cast hlen)
    have hmodl : (i + 1) % ((bSplit s).length : Int) < ((bSplit s).length : Int) :=
      Int.emod_lt_of_pos _ hlen'
    have hs' : ((endTurn sp chat db).db).playerList chat = some s := by rw [hdb]; exact hs
    have hc' : ((endTurn sp chat db).db).currentPlayer chat
        = some ((i + 1) % ((bSplit s).length : Int)) := by
      rw [hdb]; simp [setCurrentPlayerId]
    obtain ⟨ierr, ipl, icur, ioth⟩ :=
      ih (endTurn sp chat db).db s ((i + 1) % ((bSplit s).length : Int)) hs' hc' hmod0 hmodl
    rw [endTurnIter, herr]
    refine ⟨ierr, ?_, ?_, ?_⟩
    · rw [ipl, hdb]; rfl
    · rw [icur]
      congr 1
      rw [Int.emod_add_emod]
      congr 1
      push_cast
      ring
    · intro c hcne
      rw [ioth c hcne, hdb]
      simp [setCurrentPlayerId, hcne]

theorem hpInv_setDefaultHps (defaults : List (Bytes × Int)) (chat : Int) :
    ∀ (db : HpDB), hpInv db → (∀ p ∈ defaults, 0 ≤ p.2) →
      hpInv (setDefaultHps defaults chat db) := by
  induction defaults with
  | nil => intro db hdb _; exact hdb
  | cons pr rest ih =>
    intro db hdb hpos
    rw [setDefaultHps, List.foldl_cons]
    exact ih _
      (hpInv_setBoth db chat (bLower pr.1) pr.2 hdb (hpos pr (List.mem_cons_self pr rest)))
      (fun p hp => hpos p (List.mem_cons_of_mem pr hp))

/-! ## Evaluation lemmas for the `/cards` handler branches -/

theorem cardsP_draw_nil (sp : List (Bytes × Bytes)) (cfg : Bytes)
    (cat : Bytes → Option (List Bytes)) (p0 player frag chat : Bytes) (db : CardDB)
    (cards : List Bytes)
    (hros : player ∈ bSplit (bLower cfg)) (hcat : cat player = some cards)
    (hm : cards.filter (fun c => subB frag c) = []) :
    cardsCommandP sp cfg cat [p0, player, kDrawTok, frag] chat db =
      ⟨db, [.couldNotFindCat frag cards], some .indexError⟩ := by
  simp [cardsCommandP, listGetN, hros, hcat, hm,
    kHandTok, kAllTok, kShowTok, kDrawTok]

theorem cardsP_draw_cons (sp : List (Bytes × Bytes)) (cfg : Bytes)
    (cat : Bytes → Option (List Bytes)) (p0 player frag chat : Bytes) (db : CardDB)
    (cards : List Bytes) (c : Bytes) (cs : List Bytes)
    (hros : player ∈ bSplit (bLower cfg)) (hcat : cat player = some cards)
    (hm : cards.filter (fun c => subB frag c) = c :: cs) :
    cardsCommandP sp cfg cat [p0, player, kDrawTok, frag] chat db =
      ⟨setPlayerCardStatus chat player c false db, [.drew player c], none⟩ := by
  simp [cardsCommandP, listGetN, hros, hcat, hm,
    kHandTok, kAllTok, kShowTok, kDrawTok]

theorem cardsP_discard_ne1 (sp : List (Bytes × Bytes)) (cfg : Bytes)
    (cat : Bytes → Option (List Bytes)) (p0 player frag chat : Bytes) (db : CardDB)
    (hros : player ∈ bSplit (bLower cfg))
    (hne : ((getPlayerCards chat player none db).filter (fun c => subB frag c)).length ≠ 1) :
    cardsCommandP sp cfg cat [p0, player, kDiscardTok, frag] chat db =
      ⟨db, [.couldNotFindHand frag player (getPlayerCards chat player none db)], none⟩ := by
  simp [cardsCommandP, listGetN, hros, hne,
    kHandTok, kAllTok, kShowTok, kDrawTok, kDiscardTok]

theorem cardsP_discard_one (sp : List (Bytes × Bytes)) (cfg : Bytes)
    (cat : Bytes → Option (List Bytes)) (p0 player frag chat : Bytes) (db : CardDB)
    (c : Bytes)
    (hros : player ∈ bSplit (bLower cfg))
    (h1 : (getPlayerCards chat player none db).filter (fun c => subB frag c) = [c]) :
    cardsCommandP sp cfg cat [p0, player, kDiscardTok, frag] chat db =
      ⟨removePlayerCardStatus chat player c db, [.discarded player c], none⟩ := by
  simp [cardsCommandP, listGetN, hros, h1,
    kHandTok, kAllTok, kShowTok, kDrawTok, kDiscardTok]

theorem cardsP_flip_none (sp : List (Bytes × Bytes)) (cfg : Bytes)
    (cat : Bytes → Option (List Bytes)) (p0 player frag chat : Bytes) (db : CardDB)
    (hros : player ∈ bSplit (bLower cfg))
    (hnf : (getPlayerCards chat player (some false) db).filter (fun c => subB frag c) = [])
    (hfl : (getPlayerCards chat player (some true) db).filter (fun c => subB frag c) = []) :
    cardsCommandP sp cfg cat [p0, player, kFlipTok, frag] chat db =
      ⟨db, [.couldNotFindHand frag player (getPlayerCards chat player none db)], none⟩ := by
  simp [cardsCommandP, listGetN, hros, hnf, hfl,
    kHandTok, kAllTok, kShowTok, kDrawTok, kDiscardTok, kFlipTok]

theorem cardsP_flip_unflipped (sp : List (Bytes × Bytes)) (cfg : Bytes)
    (cat : Bytes → Option (List Bytes)) (p0 player frag chat : Bytes) (db : CardDB)
    (c : Bytes) (cs : List Bytes)
    (hros : player ∈ bSplit (bLower cfg))
    (hnf : (getPlayerCards chat player (some false) db).filter (fun c => subB frag c)
      = c :: cs) :
    cardsCommandP sp cfg cat [p0, player, kFlipTok, frag] chat db =
      ⟨setPlayerCardStatus chat player c true db, [.flippedMsg player c], none⟩ := by
  simp [cardsCommandP, listGetN, hros, hnf,
    kHandTok, kAllTok, kShowTok, kDrawTok, kDiscardTok, kFlipTok]

theorem cardsP_flip_flipped (sp : List (Bytes × Bytes)) (cfg : Bytes)
    (cat : Bytes → Option (List Bytes)) (p0 player frag chat : Bytes) (db : CardDB)
    (c : Bytes) (cs : List Bytes)
    (hros : player ∈ bSplit (bLower cfg))
    (hnf : (getPlayerCards chat player (some false) db).filter (fun c => subB frag c) = [])
    (hfl : (getPlayerCards chat player (some true) db).filter (fun c => subB frag c)
      = c :: cs) :
    cardsCommandP sp cfg cat [p0, player, kFlipTok, frag] chat db =
      ⟨setPlayerCardStatus chat player c false db, [.unflippedMsg player c], none⟩ := by
  simp [cardsCommandP, listGetN, hros, hnf, hfl,
    kHandTok, kAllTok, kShowTok, kDrawTok, kDiscardTok, kFlipTok]

/-! ## Concrete fixtures for witnesses and counterexamples -/

/-- An empty HP store. -/
def hpDb0 : HpDB := ⟨fun _ _ => none, fun _ _ => none⟩

/-- An empty turn store. -/
def turnDb0 : TurnDB := ⟨fun _ => none, fun _ => none⟩

/-- ASCII bytes of `"a b"`: a two-player roster configuration. -/
def kOrderAB : Bytes := [97, 32, 98]

/-- ASCII bytes of `"a"` -/
def kA : Bytes := [97]

/-- ASCII bytes of `"ab"` -/
def kAB : Bytes := [97, 98]

/-- ASCII bytes of `"1"`: the decimal rendering of a chat id. -/
def kChat1 : Bytes := [49]

/-- ASCII bytes of `"/hp a set"`: an `/hp` set command with its value missing. -/
def kHpASet : Bytes := [47, 104, 112, 32, 97, 32, 115, 101, 116]

/-- ASCII bytes of `"/cards a show"`: a `/cards` show command with its fragment missing. -/
def kCardsAShow : Bytes := [47, 99, 97, 114, 100, 115, 32, 97, 32, 115, 104, 111, 119]

/-- A catalog giving player `"a"` the single card `"foo"`. -/
def catFoo : Bytes → Option (List Bytes) :=
  fun p => if p = kA then some [[102, 111, 111]] else none

/-- The HP store after `/hp a set 20` in chat 1. -/
def hpDb20 : HpDB := (hpCommandP [] kOrderAB [kHpCmd, kA, kSetTok, [50, 48]] 1 hpDb0).db

/-- A turn store with the one-player order `"a"` and current index 0 in chat 0. -/
def turnDb1 : TurnDB :=
  ⟨fun c => if c = 0 then some kA else none, fun c => if c = 0 then some 0 else none⟩

/-- The spec's clamp function: `clamp(x, lo, hi)`. -/
def clampI (x lo hi : Int) : Int := max lo (min x hi)

/-! ## Claims -/

/-- Claim C1: every command with a missing required argument was claimed
to produce a usage/error reply and terminate normally, with no unhandled
exception.  In fact `/hp` with no player name, `/hp a set` with no
value, and `/cards a show` with no fragment (the `len(params) < 3`
guard is off by one for the `params[3]` access) all abort with an
uncaught `IndexError`, and `/hp` sends no reply at all first. -/
theorem c1_missing_argument_crashes :
    (hpCommand [] kOrderAB kHpCmd 1 hpDb0).replies = [] ∧
    (hpCommand [] kOrderAB kHpCmd 1 hpDb0).err = some .indexError ∧
    (hpCommand [] kOrderAB kHpASet 1 hpDb0).err = some .indexError ∧
    (cardsCommand [] kOrderAB catFoo kCardsAShow kChat1 []).err = some .indexError := by
  decide

/-- Claim C2 counterexample: the `draw` subcommand with a fragment that
matches nothing was claimed to send no reply at all; on the concrete
catalog giving player "a" the single card "foo", with fragment "zz", it
does send a reply (the not-found message, after which `player_cards[0]`
raises). -/
theorem c2_draw_counterexample :
    (cardsCommandP [] kOrderAB catFoo [kCardsCmd, kA, kDrawTok, [122, 122]] kChat1 []).replies
      ≠ [] := by
  decide

/-- Claim C2, amended: when no catalog card of the player contains the
fragment, `draw` sends the not-found reply listing the catalog and then
raises an uncaught `IndexError`, performing no mutation; when at least
one matches, it marks exactly the first matching catalog entry (in
catalog order) as in-hand and unflipped and reports the draw. -/
theorem c2_draw_amended (sp : List (Bytes × Bytes)) (cfg : Bytes)
    (cat : Bytes → Option (List Bytes)) (p0 player frag chat : Bytes) (db : CardDB)
    (cards : List Bytes)
    (hros : player ∈ bSplit (bLower cfg)) (hcat : cat player = some cards) :
    (cards.filter (fun c => subB frag c) = [] →
      cardsCommandP sp cfg cat [p0, player, kDrawTok, frag] chat db =
        ⟨db, [.couldNotFindCat frag cards], some .indexError⟩) ∧
    (∀ c cs, cards.filter (fun c => subB frag c) = c :: cs →
      cardsCommandP sp cfg cat [p0, player, kDrawTok, frag] chat db =
        ⟨setPlayerCardStatus chat player c false db, [.drew player c], none⟩) :=
  ⟨fun hm => cardsP_draw_nil sp cfg cat p0 player frag chat db cards hros hcat hm,
   fun c cs hm => cardsP_draw_cons sp cfg cat p0 player frag chat db cards c cs hros hcat hm⟩

/-- Witness for C2 amended: drawing `"f"` from catalog `["foo"]` marks
`"foo"` in-hand and unflipped. -/
theorem c2_draw_amended_w :
    cardsCommandP [] kOrderAB catFoo [kCardsCmd, kA, kDrawTok, [102]] kChat1 [] =
      ⟨setPlayerCardStatus kChat1 kA [102, 111, 111] false [],
       [.drew kA [102, 111, 111]], none⟩ :=
  (c2_draw_amended [] kOrderAB catFoo kCardsCmd kA [102] kChat1 [] [[102, 111, 111]]
    (by decide) (by decide)).2 [102, 111, 111] [] (by decide)

/-- Claim C3 counterexample: the claim says the stored HP after an
add/sub delta always equals `clamp(current + delta, 0, max)`.  After
`/hp a set 20`, the command `/hp a sub -100` (delta `+100` through the
`sub` subcommand) stores `120`, not `clamp(20 + 100, 0, 20) = 20`:
the `sub` path clamps at 0 only, never at max. -/
theorem c3_clamp_counterexample :
    ((hpCommandP [] kOrderAB [kHpCmd, kA, kSubTok, [45, 49, 48, 48]] 1 hpDb20).db.hp 1 kA)
      = some 120 ∧
    ((120 : Int) ≠ clampI (20 + 100) 0 20) := by
  decide

/-- Claim C3, amended: through the command surface, `add x` stores
`min(current + x, max)` and `sub x` stores `max(current - x, 0)`; when
the supplied value is non-negative and the invariant `0 ≤ current ≤ max`
holds, both agree with `clamp(current ± x, 0, max)` (in particular
set 20 / add 100 gives 20 and set 20 / sub 100 gives 0), but a negative
supplied value is clamped on one side only. -/
theorem c3_adjust_amended (sp : List (Bytes × Bytes)) (cfg p0 player tok : Bytes)
    (chat : Int) (db : HpDB) (v h m : Int)
    (hros : player ∈ bSplit (bLower cfg))
    (htok : pyInt tok = .ok v)
    (hh : db.hp chat (bLower player) = some h)
    (hm : db.maxHp chat (bLower player) = some m) :
    (hpCommandP sp cfg [p0, player, kAddTok, tok] chat db).db.hp chat (bLower player)
      = some (min (h + v) m) ∧
    (hpCommandP sp cfg [p0, player, kSubTok, tok] chat db).db.hp chat (bLower player)
      = some (max (h - v) 0) ∧
    (0 ≤ h → h ≤ m → 0 ≤ v →
      min (h + v) m = clampI (h + v) 0 m ∧ max (h - v) 0 = clampI (h - v) 0 m) := by
  refine ⟨?_, ?_, ?_⟩
  · rw [hpCommandP_add_eval sp cfg p0 player kAddTok tok chat db v h m hros
      (Or.inl rfl) htok hh hm]
    exact setPlayerHp_read chat player (min (h + v) m) db
  · rw [hpCommandP_sub_eval sp cfg p0 player kSubTok tok chat db v h hros
      (Or.inl rfl) htok hh]
    exact setPlayerHp_read chat player (max (h - v) 0) db
  · intro h0 hhm hv
    constructor <;> (simp only [clampI, min_def, max_def]; split_ifs <;> omega)

/-- Witness for C3 amended: on the state after `/hp a set 20`, add 100
yields `clamp(120, 0, 20) = 20` and sub 100 yields `clamp(-80, 0, 20) = 0`. -/
theorem c3_adjust_amended_w :
    (hpCommandP [] kOrderAB [kHpCmd, kA, kAddTok, [49, 48, 48]] 1 hpDb20).db.hp 1 (bLower kA)
      = some (clampI (20 + 100) 0 20) ∧
    (hpCommandP [] kOrderAB [kHpCmd, kA, kSubTok, [49, 48, 48]] 1 hpDb20).db.hp 1 (bLower kA)
      = some (clampI (20 - 100) 0 20) := by
  have h := c3_adjust_amended [] kOrderAB kHpCmd kA [49, 48, 48] 1 hpDb20 100 20 20
    (by decide) (by decide) (by decide) (by decide)
  obtain ⟨h1, h2, h3⟩ := h
  obtain ⟨e1, e2⟩ := h3 (by decide) (by decide) (by decide)
  exact ⟨by rw [h1, e1], by rw [h2, e2]⟩

/-- Claim C4 counterexample: the invariant `0 ≤ current ≤ max` was
claimed to hold after every HP operation for every integer argument;
`/hp a set -5` stores current = max = -5, violating `0 ≤ current`. -/
theorem c4_invariant_counterexample :
    ¬ hpInv (hpCommandP [] kOrderAB [kHpCmd, kA, kSetTok, [45, 53]] 1 hpDb0).db := by
  intro hinv
  have h := hinv 1 kA (-5) (-5) (by decide) (by decide)
  exact absurd h.1 (by decide)

/-- Claim C4, amended: the invariant `0 ≤ current ≤ max` is preserved by
every HP mutation reachable from the command surface — `set`/`=`,
`add`/`+`, `sub`/`-` and the defaults — provided the supplied integer
argument (and every configured default) is non-negative; a negative
argument can violate it. -/
theorem c4_invariant_amended (sp : List (Bytes × Bytes)) (cfg p0 player tok : Bytes)
    (chat : Int) (db : HpDB) (v : Int) (defaults : List (Bytes × Int))
    (hros : player ∈ bSplit (bLower cfg))
    (htok : pyInt tok = .ok v) (hv : 0 ≤ v)
    (hinv : hpInv db)
    (hdef : ∀ p ∈ defaults, 0 ≤ p.2) :
    hpInv (hpCommandP sp cfg [p0, player, kSetTok, tok] chat db).db ∧
    hpInv (hpCommandP sp cfg [p0, player, kEqTok, tok] chat db).db ∧
    hpInv (hpCommandP sp cfg [p0, player, kAddTok, tok] chat db).db ∧
    hpInv (hpCommandP sp cfg [p0, player, kPlusTok, tok] chat db).db ∧
    hpInv (hpCommandP sp cfg [p0, player, kSubTok, tok] chat db).db ∧
    hpInv (hpCommandP sp cfg [p0, player, kMinusTok, tok] chat db).db ∧
    hpInv (setDefaultHps defaults chat db) := by
  have hset : ∀ t, t = kSetTok ∨ t = kEqTok →
      hpInv (hpCommandP sp cfg [p0, player, t, tok] chat db).db := by
    intro t ht
    rw [hpCommandP_set_eval sp cfg p0 player t tok chat db v hros ht htok]
    exact hpInv_setBoth db chat player v hinv hv
  have hadd : ∀ t, t = kAddTok ∨ t = kPlusTok →
      hpInv (hpCommandP sp cfg [p0, player, t, tok] chat db).db := by
    intro t ht
    rcases hmax : db.maxHp chat (bLower player) with _ | m
    · rw [hpCommandP_add_nomax sp cfg p0 player t tok chat db v hros ht htok hmax]
      exact hinv
    · rcases hhp : db.hp chat (bLower player) with _ | h
      · rw [hpCommandP_add_nohp sp cfg p0 player t tok chat db v m hros ht htok hhp hmax]
        exact hinv
      · rw [hpCommandP_add_eval sp cfg p0 player t tok chat db v h m hros ht htok hhp hmax]
        obtain ⟨h0, hm0⟩ := hinv chat (bLower player) h m hhp hmax
        refine hpInv_update db chat player (min (h + v) m) hinv
          (le_min (by omega) (by omega)) ?_
        intro m' hm'
        rw [hmax] at hm'
        obtain rfl : m = m' := by injection hm'
        exact min_le_right _ _
  have hsub : ∀ t, t = kSubTok ∨ t = kMinusTok →
      hpInv (hpCommandP sp cfg [p0, player, t, tok] chat db).db := by
    intro t ht
    rcases hhp : db.hp chat (bLower player) with _ | h
    · rw [hpCommandP_sub_nohp sp cfg p0 player t tok chat db v hros ht htok hhp]
      exact hinv
    · rw [hpCommandP_sub_eval sp cfg p0 player t tok chat db v h hros ht htok hhp]
      refine hpInv_update db chat player (max (h - v) 0) hinv (le_max_right _ _) ?_
      intro m' hm'
      obtain ⟨h0, hm0⟩ := hinv chat (bLower player) h m' hhp hm'
      exact max_le (by omega) (by omega)
  exact ⟨hset kSetTok (Or.inl rfl), hset kEqTok (Or.inr rfl),
    hadd kAddTok (Or.inl rfl), hadd kPlusTok (Or.inr rfl),
    hsub kSubTok (Or.inl rfl), hsub kMinusTok (Or.inr rfl),
    hpInv_setDefaultHps defaults chat db hinv hdef⟩

/-- Witness for C4 amended: starting from the empty store, `/hp a set 20`
preserves the invariant. -/
theorem c4_invariant_amended_w :
    hpInv (hpCommandP [] kOrderAB [kHpCmd, kA, kSetTok, [50, 48]] 1 hpDb0).db :=
  (c4_invariant_amended [] kOrderAB kHpCmd kA [50, 48] 1 hpDb0 20 []
    (by decide) (by decide) (by decide)
    (fun _ _ _ _ h1 _ => nomatch h1) (fun _ hp => nomatch hp)).1

/-- Claim C5: with a stored player order of length `n > 0` and a current
index in `[0, n)`, the next index is `(current + 1) mod n`, and applying
`endTurn` `n` times returns the stored current index to its starting
value (for `n = 1` it cycles to itself). -/
theorem c5_turn_cycle (sp : List (Bytes × Bytes)) (chat : Int) (db : TurnDB)
    (s : Bytes) (i : Int)
    (hs : db.playerList chat = some s)
    (hc : db.currentPlayer chat = some i)
    (h0 : 0 ≤ i) (hn : i < ((bSplit s).length : Int)) :
    getNextPlayerId chat db = .ok ((i + 1) % ((bSplit s).length : Int)) ∧
    (endTurnIter sp chat (bSplit s).length db).err = none ∧
    (endTurnIter sp chat (bSplit s).length db).db.currentPlayer chat
      = db.currentPlayer chat := by
  have hlen : (bSplit s).length ≠ 0 := by omega
  obtain ⟨e, -, cur, -⟩ := endTurnIter_inv sp chat (bSplit s).length db s i hs hc h0 hn
  refine ⟨getNextPlayerId_ok chat db s i hs hc hlen, e, ?_⟩
  rw [cur, hc]
  congr 1
  rw [Int.add_emod, Int.emod_self, add_zero, Int.emod_emod_of_dvd _ dvd_rfl,
    Int.emod_eq_of_lt h0 hn]

/-- Witness for C5: a one-player order (`n = 1`); one `endTurn` returns
the index to 0, and the next index is `(0 + 1) mod 1 = 0`. -/
theorem c5_turn_cycle_w :
    getNextPlayerId 0 turnDb1 = .ok ((0 + 1) % ((bSplit kA).length : Int)) ∧
    (endTurnIter [] 0 (bSplit kA).length turnDb1).err = none ∧
    (endTurnIter [] 0 (bSplit kA).length turnDb1).db.currentPlayer 0
      = turnDb1.currentPlayer 0 :=
  c5_turn_cycle [] 0 turnDb1 kA 0 (by decide) (by decide) (by decide) (by decide)

/-- Claim C6: `discard` requires exactly one in-hand card (any flip
state, as listed by the scan) containing the fragment; with zero or more
than one match it replies listing the in-hand set and changes nothing;
with exactly one match it deletes that card's status record, after which
the card is absent from every subsequent listing and a second discard of
the same fragment yields the not-found reply rather than a crash. -/
theorem c6_discard (sp : List (Bytes × Bytes)) (cfg : Bytes)
    (cat : Bytes → Option (List Bytes)) (p0 player frag chat : Bytes) (db : CardDB)
    (hros : player ∈ bSplit (bLower cfg)) :
    (((getPlayerCards chat player none db).filter (fun c => subB frag c)).length ≠ 1 →
      cardsCommandP sp cfg cat [p0, player, kDiscardTok, frag] chat db =
        ⟨db, [.couldNotFindHand frag player (getPlayerCards chat player none db)], none⟩) ∧
    (∀ c, (getPlayerCards chat player none db).filter (fun c => subB frag c) = [c] →
      cardsCommandP sp cfg cat [p0, player, kDiscardTok, frag] chat db =
        ⟨removePlayerCardStatus chat player c db, [.discarded player c], none⟩ ∧
      (∀ flt, c ∉ getPlayerCards chat player flt (removePlayerCardStatus chat player c db)) ∧
      cardsCommandP sp cfg cat [p0, player, kDiscardTok, frag] chat
          (removePlayerCardStatus chat player c db) =
        ⟨removePlayerCardStatus chat player c db,
         [.couldNotFindHand frag player
            (getPlayerCards chat player none (removePlayerCardStatus chat player c db))],
         none⟩) := by
  refine ⟨fun hne => cardsP_discard_ne1 sp cfg cat p0 player frag chat db hros hne,
    fun c h1 => ⟨cardsP_discard_one sp cfg cat p0 player frag chat db c hros h1,
      fun flt => not_mem_scan_remove chat player c flt db, ?_⟩⟩
  have hempty : (getPlayerCards chat player none
      (removePlayerCardStatus chat player c db)).filter (fun c => subB frag c) = [] := by
    rw [List.eq_nil_iff_forall_not_mem]
    intro d hd
    rw [List.mem_filter] at hd
    obtain ⟨hmem, hsubd⟩ := hd
    obtain ⟨hmem0, hne⟩ := mem_scan_remove chat player c d none db hmem
    have hdm : d ∈ (getPlayerCards chat player none db).filter (fun c => subB frag c) := by
      rw [List.mem_filter]; exact ⟨hmem0, hsubd⟩
    rw [h1] at hdm
    simp only [List.mem_singleton] at hdm
    exact hne hdm
  refine cardsP_discard_ne1 sp cfg cat p0 player frag chat _ hros ?_
  rw [hempty]
  decide

/-- Witness for C6: with the single in-hand card `"ab"` and fragment
`"a"`, discard removes the record. -/
theorem c6_discard_w :
    cardsCommandP [] kOrderAB catFoo [kCardsCmd, kA, kDiscardTok, kA] kChat1
        [(cardKeyPref kChat1 kA ++ kAB, false)] =
      ⟨removePlayerCardStatus kChat1 kA kAB [(cardKeyPref kChat1 kA ++ kAB, false)],
       [.discarded kA kAB], none⟩ :=
  ((c6_discard [] kOrderAB catFoo kCardsCmd kA kA kChat1
    [(cardKeyPref kChat1 kA ++ kAB, false)] (by decide)).2 kAB (by decide)).1

/-- Claim C7: every in-hand card was claimed to appear in the scan
because the upper bound appends a high sentinel byte that sorts above
every card key.  In fact Python's `"\255"` is the octal escape for
U+00AD, UTF-8-encoded as the two bytes `[194, 173]`; a drawn card whose
identifier is `"À"` (bytes `[195, 128]`) has a key above the bound, and
the scan misses it even though its status record exists. -/
theorem c7_scan_misses_card :
    sentinel = [194, 173] ∧
    setPlayerCardStatus kChat1 kA [195, 128] false [] =
      [(cardKeyPref kChat1 kA ++ [195, 128], false)] ∧
    getPlayerCards kChat1 kA none (setPlayerCardStatus kChat1 kA [195, 128] false []) = []
    := by
  decide

/-- Claim C8 counterexample: the round trip was claimed for every
non-empty list of whitespace-free names; the list containing one empty
name is such a list, but the whitespace split on read-back drops the
empty token, so it reads back as `[]`, not `[""]`. -/
theorem c8_roundtrip_counterexample :
    ((setPlayerOrder 1 [([] : Bytes)] turnDb0).playerList 1).map bSplit
      ≠ some [([] : Bytes)] := by
  decide

/-- Claim C8, amended: for every non-empty list of non-empty,
whitespace-free names, `setPlayerOrder` followed by reading the order
back yields the same list in the same sequence, the current-turn index
is reset to 0 regardless of its prior value, and both fields of every
other chat are unchanged. -/
theorem c8_roundtrip_amended (chat : Int) (names : List Bytes) (db : TurnDB)
    (_hne : names ≠ [])
    (hn : ∀ n ∈ names, n ≠ [] ∧ ∀ b ∈ n, isSpaceB b = false) :
    ((setPlayerOrder chat names db).playerList chat).map bSplit = some names ∧
    (setPlayerOrder chat names db).currentPlayer chat = some 0 ∧
    ∀ c, c ≠ chat →
      (setPlayerOrder chat names db).playerList c = db.playerList c ∧
      (setPlayerOrder chat names db).currentPlayer c = db.currentPlayer c := by
  refine ⟨?_, ?_, ?_⟩
  · simp [setPlayerOrder, setCurrentPlayerId, bSplit_bJoin names hn]
  · simp [setPlayerOrder, setCurrentPlayerId]
  · intro c hc
    constructor <;> simp [setPlayerOrder, setCurrentPlayerId, hc]

/-- Witness for C8 amended: order `["a", "b"]` set in chat 1 over the
empty store round-trips with index 0. -/
theorem c8_roundtrip_amended_w :
    ((setPlayerOrder 1 [[97], [98]] turnDb0).playerList 1).map bSplit = some [[97], [98]] ∧
    (setPlayerOrder 1 [[97], [98]] turnDb0).currentPlayer 1 = some 0 ∧
    ∀ c, c ≠ 1 →
      (setPlayerOrder 1 [[97], [98]] turnDb0).playerList c = turnDb0.playerList c ∧
      (setPlayerOrder 1 [[97], [98]] turnDb0).currentPlayer c = turnDb0.currentPlayer c :=
  c8_roundtrip_amended 1 [[97], [98]] turnDb0 (by decide) (by decide)

/-- Claim C9: `flip` searches unflipped in-hand cards first — if one
contains the fragment it marks that card flipped and reports "flipped";
otherwise, if a flipped in-hand card contains the fragment it marks it
unflipped and reports "unflipped"; otherwise it replies not-found
listing all in-hand cards regardless of flip state and mutates nothing. -/
theorem c9_flip (sp : List (Bytes × Bytes)) (cfg : Bytes)
    (cat : Bytes → Option (List Bytes)) (p0 player frag chat : Bytes) (db : CardDB)
    (hros : player ∈ bSplit (bLower cfg)) :
    ((getPlayerCards chat player (some false) db).filter (fun c => subB frag c) = [] →
     (getPlayerCards chat player (some true) db).filter (fun c => subB frag c) = [] →
      cardsCommandP sp cfg cat [p0, player, kFlipTok, frag] chat db =
        ⟨db, [.couldNotFindHand frag player (getPlayerCards chat player none db)], none⟩) ∧
    (∀ c cs, (getPlayerCards chat player (some false) db).filter (fun c => subB frag c)
        = c :: cs →
      cardsCommandP sp cfg cat [p0, player, kFlipTok, frag] chat db =
        ⟨setPlayerCardStatus chat player c true db, [.flippedMsg player c], none⟩) ∧
    (∀ c cs, (getPlayerCards chat player (some false) db).filter (fun c => subB frag c) = [] →
      (getPlayerCards chat player (some true) db).filter (fun c => subB frag c) = c :: cs →
      cardsCommandP sp cfg cat [p0, player, kFlipTok, frag] chat db =
        ⟨setPlayerCardStatus chat player c false db, [.unflippedMsg player c], none⟩) :=
  ⟨fun hnf hfl => cardsP_flip_none sp cfg cat p0 player frag chat db hros hnf hfl,
   fun c cs hnf => cardsP_flip_unflipped sp cfg cat p0 player frag chat db c cs hros hnf,
   fun c cs hnf hfl => cardsP_flip_flipped sp cfg cat p0 player frag chat db c cs hros hnf hfl⟩

/-- Witness for C9: with the single unflipped in-hand card `"ab"` and
fragment `"a"`, flip marks it flipped. -/
theorem c9_flip_w :
    cardsCommandP [] kOrderAB catFoo [kCardsCmd, kA, kFlipTok, kA] kChat1
        [(cardKeyPref kChat1 kA ++ kAB, false)] =
      ⟨setPlayerCardStatus kChat1 kA kAB true [(cardKeyPref kChat1 kA ++ kAB, false)],
       [.flippedMsg kA kAB], none⟩ :=
  (c9_flip [] kOrderAB catFoo kCardsCmd kA kA kChat1
    [(cardKeyPref kChat1 kA ++ kAB, false)] (by decide)).2.1 kAB [] (by decide)

/-- Claim C10: `/setplayerlist` with no name arguments is accepted (it
replies "Player list set."), stores an empty order with current index 0,
and afterwards every turn operation fails for that chat: the next-index
computation divides by zero and reading the current player indexes into
an empty list. -/
theorem c10_empty_player_list (chat : Int) (db : TurnDB) :
    (setPlayerList chat kSetPlayerListCmd db).err = none ∧
    (setPlayerList chat kSetPlayerListCmd db).replies = [.playerListSet] ∧
    ((setPlayerList chat kSetPlayerListCmd db).db.playerList chat).map bSplit = some [] ∧
    (setPlayerList chat kSetPlayerListCmd db).db.currentPlayer chat = some 0 ∧
    getNextPlayerId chat (setPlayerList chat kSetPlayerListCmd db).db
      = .error .zeroDivision ∧
    getPlayerById chat 0 (setPlayerList chat kSetPlayerListCmd db).db
      = .error .indexError := by
  have hdrop : (bSplit (bLower kSetPlayerListCmd)).drop 1 = [] := by decide
  refine ⟨rfl, rfl, ?_, ?_, ?_, ?_⟩
  · simp [setPlayerList, setPlayerOrder, setCurrentPlayerId, hdrop, bJoin, bSplit, bSplitGo]
  · simp [setPlayerList, setPlayerOrder, setCurrentPlayerId]
  · simp [setPlayerList, setPlayerOrder, setCurrentPlayerId, hdrop, getNextPlayerId,
      dbGetO, Bind.bind, Except.bind, pyMod, bJoin, bSplit, bSplitGo]
  · simp [setPlayerList, setPlayerOrder, setCurrentPlayerId, hdrop, getPlayerById,
      dbGetO, Bind.bind, Except.bind, pyIndex, listGetN, bJoin, bSplit, bSplitGo]

end D20Potz
